import Mathlib

/-!
Shallow embedding of the retrieval-evaluation core of a legal-RAG benchmark.

Modules embedded:
* `src/src/metrics/scoring.py` — `_dcg`, `compute_ndcg`, `compute_recall`,
  `compute_mrr`, `aggregate_metrics`.
* `src/src/retrievers/lexical.py` — the TF-IDF index and `search`.
* `src/src/retrievers/remote.py` — the HTTP retriever's error boundary.

Python floats are modelled as exact reals, Python ints as `ℤ`/`ℕ`, Python
`None` returns as `Option`.  Document ids are `ℤ`.
-/

/-! ### scoring.py -/

/-- `_dcg`'s loop, carrying the running 0-based index `i`.  The source skips
entries with `rel <= 0` and otherwise adds `rel / log2(idx + 2)`. -/
noncomputable def dcgFrom : ℕ → List ℕ → ℝ
  | _, [] => 0
  | i, r :: rest =>
      (if r = 0 then 0 else (r : ℝ) / Real.logb 2 ((i : ℝ) + 2)) + dcgFrom (i + 1) rest

/-- `_dcg(relevances)`. -/
noncomputable def dcg (relevances : List ℕ) : ℝ := dcgFrom 0 relevances

/-- The ground-truth id set (`gt_set` in the source); `None` entries of the
Python sequence are outside the scope of the embedding. -/
def gtSet (ground_truth : List ℤ) : Finset ℤ := ground_truth.toFinset

/-- The binary relevance sequence over a truncated prediction list. -/
def relevanceList (gtS : Finset ℤ) (truncated : List ℤ) : List ℕ :=
  truncated.map (fun d => if d ∈ gtS then 1 else 0)

/-- `compute_ndcg(ground_truth, predictions, k)`.  `k = none` defaults to the
full prediction length, as in the source. -/
noncomputable def compute_ndcg (ground_truth predictions : List ℤ) (k : Option ℕ) :
    Option ℝ :=
  let gtS := gtSet ground_truth
  if gtS = ∅ then none
  else
    let kk := k.getD predictions.length
    let truncated := predictions.take kk
    let relevances := relevanceList gtS truncated
    let ideal :=
      if relevances.sum < gtS.card then List.replicate (min gtS.card kk) 1
      else List.insertionSort (· ≥ ·) relevances
    if dcg ideal = 0 then some 0 else some (dcg relevances / dcg ideal)

/-- `compute_recall(ground_truth, predictions, k)`. -/
noncomputable def compute_recall (ground_truth predictions : List ℤ) (k : Option ℕ) :
    Option ℝ :=
  let gtS := gtSet ground_truth
  if gtS = ∅ then none
  else
    let truncated := (predictions.take (k.getD predictions.length)).toFinset
    some (((gtS ∩ truncated).card : ℝ) / (gtS.card : ℝ))

/-- `compute_mrr`'s loop over the truncated search space, carrying the
0-based index. -/
noncomputable def mrrFrom (gtS : Finset ℤ) : ℕ → List ℤ → ℝ
  | _, [] => 0
  | i, d :: rest => if d ∈ gtS then 1 / ((i : ℝ) + 1) else mrrFrom gtS (i + 1) rest

/-- `compute_mrr(ground_truth, predictions, k)`. -/
noncomputable def compute_mrr (ground_truth predictions : List ℤ) (k : Option ℕ) :
    Option ℝ :=
  let gtS := gtSet ground_truth
  if gtS = ∅ then none
  else some (mrrFrom gtS 0 (predictions.take (k.getD predictions.length)))

/-- A per-query metric record as consumed by `aggregate_metrics`; `none`
is Python's `None` ("not computed"). -/
structure QueryMetrics where
  ndcg : Option ℝ
  «recall» : Option ℝ
  mrr : Option ℝ

/-- The aggregate record returned by `aggregate_metrics`. -/
structure AggregateMetrics where
  ndcg : Option ℝ
  «recall» : Option ℝ
  mrr : Option ℝ
  evaluated_queries : ℕ
  total_queries : ℕ
  hit_rate : Option ℝ

/-- One record's contribution to `hit_count`: Python's
`if recall_value and recall_value > 0` is true exactly when recall is a
defined value greater than zero (`0.0` is falsy). -/
noncomputable def hitIndicator (e : QueryMetrics) : ℕ :=
  match e.«recall» with
  | none => 0
  | some r => if 0 < r then 1 else 0

/-- The `hit_count` accumulated over the record list. -/
noncomputable def hitCount (l : List QueryMetrics) : ℕ := (l.map hitIndicator).sum

/-- The defined values of one metric across the records: the loop adds
`value` to `totals[key]` and bumps `counts[key]` exactly for non-`None`
values, so `totals = (optVals f l).sum` and `counts = (optVals f l).length`. -/
def optVals (f : QueryMetrics → Option ℝ) (l : List QueryMetrics) : List ℝ :=
  l.filterMap f

/-- `totals[key] / counts[key] if counts[key] else None`. -/
noncomputable def averagedOf (l : List ℝ) : Option ℝ :=
  if l.length = 0 then none else some (l.sum / (l.length : ℝ))

/-- `aggregate_metrics(per_query)`. -/
noncomputable def aggregate_metrics (l : List QueryMetrics) : AggregateMetrics :=
  let nd := optVals (fun e => e.ndcg) l
  let rc := optVals (fun e => e.«recall») l
  let mr := optVals (fun e => e.mrr) l
  { ndcg := averagedOf nd
    «recall» := averagedOf rc
    mrr := averagedOf mr
    evaluated_queries := max nd.length (max rc.length mr.length)
    total_queries := l.length
    hit_rate :=
      if l.length = 0 then none else some ((hitCount l : ℝ) / (l.length : ℝ)) }

/-! ### Helper lemmas about DCG -/

theorem dcgFrom_append_replicate_zero (n : ℕ) :
    ∀ (l : List ℕ) (i : ℕ), dcgFrom i (l ++ List.replicate n 0) = dcgFrom i l := by
  intro l
  induction l with
  | nil =>
      intro i
      simp only [List.nil_append]
      induction n generalizing i with
      | zero => simp [dcgFrom]
      | succ m ih => simp [List.replicate_succ, dcgFrom, ih]
  | cons r rest ih =>
      intro i
      simp [dcgFrom, ih]

theorem dcgFrom_nonneg : ∀ (l : List ℕ) (i : ℕ), 0 ≤ dcgFrom i l := by
  intro l
  induction l with
  | nil => intro i; simp [dcgFrom]
  | cons r rest ih =>
      intro i
      have hlog : 0 < Real.logb 2 ((i : ℝ) + 2) := by
        apply Real.logb_pos (by norm_num)
        have : (0 : ℝ) ≤ (i : ℝ) := Nat.cast_nonneg i
        linarith
      have hterm : 0 ≤ (if r = 0 then 0 else (r : ℝ) / Real.logb 2 ((i : ℝ) + 2)) := by
        split
        · exact le_refl 0
        · exact div_nonneg (Nat.cast_nonneg r) hlog.le
      have := ih (i + 1)
      simp only [dcgFrom]
      linarith

/-! ### Claim C1 -/

/-- The ideal relevance sequence exactly as the spec words it: if the number
of relevant hits is at least `|G|` the actual sequence sorted descending,
otherwise `min(|G|, k)` ones followed by zeros (padded to the cutoff). -/
def idealClaim (gtS : Finset ℤ) (kk : ℕ) (relevances : List ℕ) : List ℕ :=
  if gtS.card ≤ relevances.sum then List.insertionSort (· ≥ ·) relevances
  else List.replicate (min gtS.card kk) 1 ++ List.replicate (kk - min gtS.card kk) 0

/-- The NDCG value as the spec describes it: `DCG(actual) / DCG(ideal)`,
or `0.0` when the ideal DCG is zero. -/
noncomputable def ndcgClaim (ground_truth predictions : List ℤ) (kk : ℕ) : ℝ :=
  let gtS := gtSet ground_truth
  let relevances := relevanceList gtS (predictions.take kk)
  let ideal := idealClaim gtS kk relevances
  if dcg ideal = 0 then 0 else dcg relevances / dcg ideal

/-- Claim C1: for every non-empty ground-truth set, prediction list and
cutoff `k`, `compute_ndcg` agrees with the spec's description of the ideal
sequence (sorted actual when hits ≥ |G|, else min(|G|, k) ones then zeros)
and returns `DCG(actual)/DCG(ideal)`, or `0.0` when the ideal DCG is `0`. -/
theorem claim_C1 (gt preds : List ℤ) (k : ℕ) (h : gtSet gt ≠ ∅) :
    compute_ndcg gt preds (some k) = some (ndcgClaim gt preds k) := by
  have hdcg :
      dcg (if (relevanceList (gtSet gt) (preds.take k)).sum < (gtSet gt).card then
            List.replicate (min (gtSet gt).card k) 1
          else List.insertionSort (· ≥ ·) (relevanceList (gtSet gt) (preds.take k))) =
      dcg (idealClaim (gtSet gt) k (relevanceList (gtSet gt) (preds.take k))) := by
    unfold idealClaim
    rcases lt_or_le (relevanceList (gtSet gt) (preds.take k)).sum (gtSet gt).card with hlt | hle
    · rw [if_pos hlt, if_neg (by omega)]
      unfold dcg
      rw [dcgFrom_append_replicate_zero]
    · rw [if_neg (by omega), if_pos hle]
  simp only [compute_ndcg, ndcgClaim, Option.getD_some, if_neg h]
  rw [hdcg]
  split <;> rfl

/-- Witness for Claim C1 at a concrete input. -/
theorem claim_C1_witness :
    compute_ndcg [1] [2, 1] (some 2) = some (ndcgClaim [1] [2, 1] 2) :=
  claim_C1 [1] [2, 1] 2 (by decide)

/-! ### Claim C5 -/

theorem dcg_one_cons_pos (rest : List ℕ) : 0 < dcg (1 :: rest) := by
  have h2 : Real.logb 2 ((0 : ℕ) + 2 : ℝ) = 1 := by
    norm_num [Real.logb_self_eq_one one_lt_two]
  have hnn := dcgFrom_nonneg rest 1
  simp only [dcg, dcgFrom, one_ne_zero, if_false, Nat.cast_one]
  have harg : ((0 : ℕ) : ℝ) + 2 = 2 := by norm_num
  rw [harg, Real.logb_self_eq_one one_lt_two]
  norm_num
  linarith

/-- Claim C5 fails as stated: ground truth `{1}`, predictions `[1, 2, 1]`
(all of `G` first, followed by anything), cutoff `3 ≥ |G|`, yet the NDCG is
`(3/2) / (1 + 1/log2 3) < 1`, because the later duplicate hit is discounted
in the actual sequence but promoted in the ideal one. -/
theorem claim_C5_counterexample : compute_ndcg [1] [1, 2, 1] (some 3) ≠ some 1 := by
  have hL2 : Real.logb 2 2 = 1 := Real.logb_self_eq_one one_lt_two
  have hL4 : Real.logb 2 4 = 2 := by
    rw [show (4 : ℝ) = 2 ^ (2 : ℕ) by norm_num, Real.logb_pow, hL2]
    norm_num
  have hL3lt : Real.logb 2 3 < 2 := by
    have h := Real.logb_lt_logb (b := 2) one_lt_two
      (by norm_num : (0 : ℝ) < 3) (by norm_num : (3 : ℝ) < 4)
    rwa [hL4] at h
  have hL3gt : 1 < Real.logb 2 3 := by
    have h := Real.logb_lt_logb (b := 2) one_lt_two
      (by norm_num : (0 : ℝ) < 2) (by norm_num : (2 : ℝ) < 3)
    rwa [hL2] at h
  have hL3pos : 0 < Real.logb 2 3 := lt_trans zero_lt_one hL3gt
  have hda : dcg [1, 0, 1] = 3 / 2 := by
    simp only [dcg, dcgFrom, Nat.cast_one, Nat.cast_zero, Nat.cast_ofNat,
      one_ne_zero, if_false, if_true]
    norm_num [hL2, hL4]
  have hdi : dcg [1, 1, 0] = 1 + 1 / Real.logb 2 3 := by
    simp only [dcg, dcgFrom, Nat.cast_one, Nat.cast_zero, Nat.cast_ofNat,
      one_ne_zero, if_false, if_true]
    norm_num [hL2]
  have hrel : relevanceList (gtSet [1]) (List.take 3 [1, 2, 1]) = [1, 0, 1] := by decide
  have hsort :
      List.insertionSort (· ≥ ·) ([1, 0, 1] : List ℕ) = [1, 1, 0] := by decide
  have hset : ¬(gtSet [1] = (∅ : Finset ℤ)) := by decide
  have hcond : ¬(([1, 0, 1] : List ℕ).sum < (gtSet [1]).card) := by decide
  have hden : (0 : ℝ) < 1 + 1 / Real.logb 2 3 := by positivity
  have hcomp : compute_ndcg [1] [1, 2, 1] (some 3) =
      some ((3 / 2) / (1 + 1 / Real.logb 2 3)) := by
    simp only [compute_ndcg, Option.getD_some]
    rw [if_neg hset]
    simp only [hrel]
    rw [if_neg hcond, hsort, hdi, hda, if_neg (ne_of_gt hden)]
  rw [hcomp]
  intro hcontra
  have heq : (3 / 2 : ℝ) / (1 + 1 / Real.logb 2 3) = 1 := Option.some.inj hcontra
  rw [div_eq_one_iff_eq (ne_of_gt hden)] at heq
  have hinv : 1 / Real.logb 2 3 = 1 / 2 := by linarith
  have h32 : Real.logb 2 3 = 2 := by
    field_simp at hinv
    linarith
  linarith

/-- Sortedness of a block of ones followed by a block of zeros. -/
theorem sorted_ones_zeros (n m : ℕ) :
    List.Sorted (· ≥ ·) (List.replicate n 1 ++ List.replicate m 0) := by
  rw [List.Sorted, List.pairwise_append]
  refine ⟨?_, ?_, ?_⟩
  · exact List.pairwise_replicate.mpr (Or.inr (le_refl 1))
  · exact List.pairwise_replicate.mpr (Or.inr (le_refl 0))
  · intro x hx y hy
    rw [List.mem_replicate] at hx hy
    omega

/-- Claim C5, amended: the perfect-ranking NDCG is exactly 1 when all of `G`
appears first (in any order, without repetition) followed by predictions
*outside* `G`; a tail that repeats an element of `G` can push NDCG below 1. -/
theorem claim_C5_amended (gt ps ts : List ℤ) (k : ℕ)
    (hg : gtSet gt ≠ ∅) (hnd : ps.Nodup) (hpf : ps.toFinset = gtSet gt)
    (ht : ∀ x ∈ ts, x ∉ gtSet gt) (hk : (gtSet gt).card ≤ k) :
    compute_ndcg gt (ps ++ ts) (some k) = some 1 := by
  have hlen : ps.length = (gtSet gt).card := by
    rw [← hpf]; exact (List.toFinset_card_of_nodup hnd).symm
  have hklen : ps.length ≤ k := by omega
  have htake : (ps ++ ts).take k = ps ++ ts.take (k - ps.length) := by
    rw [List.take_append_eq_append_take, List.take_of_length_le hklen]
  have hrel : relevanceList (gtSet gt) ((ps ++ ts).take k) =
      List.replicate ps.length 1 ++
        List.replicate (ts.take (k - ps.length)).length 0 := by
    rw [htake]
    unfold relevanceList
    rw [List.map_append]
    congr 1
    · rw [List.eq_replicate_iff]
      refine ⟨by simp, ?_⟩
      intro b hb
      obtain ⟨a, ha, rfl⟩ := List.mem_map.1 hb
      have : a ∈ gtSet gt := by
        rw [← hpf]
        exact List.mem_toFinset.mpr ha
      simp [this]
    · rw [List.eq_replicate_iff]
      refine ⟨by simp, ?_⟩
      intro b hb
      obtain ⟨a, ha, rfl⟩ := List.mem_map.1 hb
      have : a ∉ gtSet gt := ht a (List.take_subset _ _ ha)
      simp [this]
  have hsum : (List.replicate ps.length 1 ++
      List.replicate (ts.take (k - ps.length)).length 0).sum = ps.length := by
    simp
  have hcond : ¬((List.replicate ps.length 1 ++
      List.replicate (ts.take (k - ps.length)).length 0).sum < (gtSet gt).card) := by
    rw [hsum]; omega
  have hsorted := sorted_ones_zeros ps.length (ts.take (k - ps.length)).length
  have hcardpos : 0 < (gtSet gt).card :=
    Finset.card_pos.mpr (Finset.nonempty_iff_ne_empty.mpr hg)
  have hpos : 0 < dcg (List.replicate ps.length 1 ++
      List.replicate (ts.take (k - ps.length)).length 0) := by
    obtain ⟨m, hm⟩ : ∃ m, ps.length = m + 1 := by
      refine ⟨ps.length - 1, ?_⟩; omega
    rw [hm, List.replicate_succ, List.cons_append]
    exact dcg_one_cons_pos _
  simp only [compute_ndcg, Option.getD_some]
  rw [if_neg hg]
  simp only [hrel]
  rw [if_neg hcond, List.Sorted.insertionSort_eq hsorted,
    if_neg (ne_of_gt hpos), div_self (ne_of_gt hpos)]

/-- Witness for the amended Claim C5 at a concrete input. -/
theorem claim_C5_amended_witness :
    compute_ndcg [1, 2] ([2, 1] ++ [5]) (some 3) = some 1 :=
  claim_C5_amended [1, 2] [2, 1] [5] 3 (by decide) (by decide) (by decide)
    (by decide) (by decide)

/-! ### Claim C6 -/

/-- Claim C6: `compute_recall` is `|G ∩ first-k| / |G|`, lies in `[0, 1]`
when `G` is non-empty, and is `None` when `G` is empty. -/
theorem claim_C6 (gt preds : List ℤ) (k : ℕ) :
    (gtSet gt = ∅ → compute_recall gt preds (some k) = none) ∧
    (gtSet gt ≠ ∅ →
      compute_recall gt preds (some k) =
        some (((gtSet gt ∩ (preds.take k).toFinset).card : ℝ) /
          ((gtSet gt).card : ℝ)) ∧
      0 ≤ ((gtSet gt ∩ (preds.take k).toFinset).card : ℝ) / ((gtSet gt).card : ℝ) ∧
      ((gtSet gt ∩ (preds.take k).toFinset).card : ℝ) / ((gtSet gt).card : ℝ) ≤ 1) := by
  constructor
  · intro h
    simp only [compute_recall, if_pos h]
  · intro h
    refine ⟨?_, ?_, ?_⟩
    · simp only [compute_recall, Option.getD_some, if_neg h]
    · positivity
    · apply div_le_one_of_le₀
      · exact_mod_cast Finset.card_le_card Finset.inter_subset_left
      · positivity

/-- Witness for Claim C6 at the spec's concrete scenario
(`G = {1,2,3}`, predictions `[5,2,9,1,7]`, `k = 5`, recall `2/3`). -/
theorem claim_C6_witness :
    compute_recall [1, 2, 3] [5, 2, 9, 1, 7] (some 5) =
      some (((gtSet [1, 2, 3] ∩ (([5, 2, 9, 1, 7] : List ℤ).take 5).toFinset).card : ℝ) /
        ((gtSet [1, 2, 3]).card : ℝ)) ∧
    0 ≤ ((gtSet [1, 2, 3] ∩ (([5, 2, 9, 1, 7] : List ℤ).take 5).toFinset).card : ℝ) /
      ((gtSet [1, 2, 3]).card : ℝ) ∧
    ((gtSet [1, 2, 3] ∩ (([5, 2, 9, 1, 7] : List ℤ).take 5).toFinset).card : ℝ) /
      ((gtSet [1, 2, 3]).card : ℝ) ≤ 1 :=
  (claim_C6 [1, 2, 3] [5, 2, 9, 1, 7] 5).2 (by decide)

/-! ### Claim C7 -/

theorem mrrFrom_of_first (gtS : Finset ℤ) :
    ∀ (l : List ℤ) (n : ℕ) (hn : n < l.length),
      l.get ⟨n, hn⟩ ∈ gtS →
      (∀ (j : ℕ) (hj : j < n), l.get ⟨j, lt_trans hj hn⟩ ∉ gtS) →
      ∀ i : ℕ, mrrFrom gtS i l = 1 / ((i : ℝ) + (n : ℝ) + 1) := by
  intro l
  induction l with
  | nil =>
      intro n hn
      simp at hn
  | cons d rest ih =>
      intro n hn hmem hprev i
      cases n with
      | zero =>
          have hd : d ∈ gtS := hmem
          simp only [mrrFrom, if_pos hd, Nat.cast_zero]
          norm_num
      | succ m =>
          have hd : d ∉ gtS := by
            have := hprev 0 (Nat.succ_pos m)
            exact this
          have hm : m < rest.length := by
            simpa [Nat.succ_lt_succ_iff] using hn
          have hmem' : rest.get ⟨m, hm⟩ ∈ gtS := hmem
          have hprev' : ∀ (j : ℕ) (hj : j < m), rest.get ⟨j, lt_trans hj hm⟩ ∉ gtS := by
            intro j hj
            have := hprev (j + 1) (Nat.succ_lt_succ hj)
            exact this
          have := ih m hm hmem' hprev' (i + 1)
          simp only [mrrFrom, if_neg hd, this]
          push_cast
          ring_nf

theorem mrrFrom_of_none (gtS : Finset ℤ) :
    ∀ l : List ℤ, (∀ x ∈ l, x ∉ gtS) → ∀ i : ℕ, mrrFrom gtS i l = 0 := by
  intro l
  induction l with
  | nil => intro _ i; simp [mrrFrom]
  | cons d rest ih =>
      intro h i
      have hd : d ∉ gtS := h d (List.mem_cons_self d rest)
      simp only [mrrFrom, if_neg hd]
      exact ih (fun x hx => h x (List.mem_cons_of_mem d hx)) (i + 1)

/-- Claim C7: for a non-empty ground-truth set, `compute_mrr` is `1/(i+1)`
for `i` the 0-based index of the first prediction (within the first `k`)
in `G`, and `0.0` when no such prediction exists. -/
theorem claim_C7 (gt preds : List ℤ) (k : ℕ) (h : gtSet gt ≠ ∅) :
    (∀ (i : ℕ) (hi : i < (preds.take k).length),
        (preds.take k).get ⟨i, hi⟩ ∈ gtSet gt →
        (∀ (j : ℕ) (hj : j < i), (preds.take k).get ⟨j, lt_trans hj hi⟩ ∉ gtSet gt) →
        compute_mrr gt preds (some k) = some (1 / ((i : ℝ) + 1))) ∧
    ((∀ x ∈ preds.take k, x ∉ gtSet gt) → compute_mrr gt preds (some k) = some 0) := by
  constructor
  · intro i hi hmem hprev
    have hv := mrrFrom_of_first (gtSet gt) (preds.take k) i hi hmem hprev 0
    simp only [compute_mrr, Option.getD_some, if_neg h, hv]
    norm_num
  · intro hall
    have hv := mrrFrom_of_none (gtSet gt) (preds.take k) hall 0
    simp only [compute_mrr, Option.getD_some, if_neg h, hv]

/-- Witness for Claim C7 at the spec's concrete scenario (first hit at
0-based index 1, MRR `1/2`). -/
theorem claim_C7_witness :
    compute_mrr [1, 2, 3] [5, 2, 9, 1, 7] (some 5) = some (1 / (((1 : ℕ) : ℝ) + 1)) :=
  (claim_C7 [1, 2, 3] [5, 2, 9, 1, 7] 5 (by decide)).1 1 (by decide) (by decide)
    (by decide)

/-! ### Claim C3 -/

/-- Claim C3 fails as stated: appending a record with an empty ground-truth
set (all metrics `None`) to `[{ndcg := 1, recall := 1, mrr := 1}]` leaves the
metric averages alone but moves the hit rate from `1` to `1/2`, because every
record — labelled or not — enters the hit-rate denominator. -/
theorem claim_C3_counterexample :
    (aggregate_metrics
        [⟨some 1, some 1, some 1⟩, ⟨none, none, none⟩]).hit_rate ≠
      (aggregate_metrics [⟨some 1, some 1, some 1⟩]).hit_rate := by
  have h1 : hitCount [⟨some 1, some 1, some 1⟩, ⟨none, none, none⟩] = 1 := by
    simp [hitCount, hitIndicator]
  have h2 : hitCount [⟨some 1, some 1, some 1⟩] = 1 := by
    simp [hitCount, hitIndicator]
  simp only [aggregate_metrics, h1, h2, List.length_cons, List.length_nil]
  norm_num

/-- Claim C3, amended: a record with all metrics undefined is counted in
`total_queries`, leaves the aggregate ndcg/recall/mrr and `evaluated_queries`
unchanged and never counts as a hit, but it does enlarge the hit-rate
denominator (which spans all queries), so the hit rate itself can change. -/
theorem claim_C3_amended (l : List QueryMetrics) :
    (aggregate_metrics (l ++ [⟨none, none, none⟩])).total_queries =
      (aggregate_metrics l).total_queries + 1 ∧
    (aggregate_metrics (l ++ [⟨none, none, none⟩])).ndcg =
      (aggregate_metrics l).ndcg ∧
    (aggregate_metrics (l ++ [⟨none, none, none⟩])).«recall» =
      (aggregate_metrics l).«recall» ∧
    (aggregate_metrics (l ++ [⟨none, none, none⟩])).mrr =
      (aggregate_metrics l).mrr ∧
    (aggregate_metrics (l ++ [⟨none, none, none⟩])).evaluated_queries =
      (aggregate_metrics l).evaluated_queries ∧
    hitCount (l ++ [⟨none, none, none⟩]) = hitCount l ∧
    (aggregate_metrics (l ++ [⟨none, none, none⟩])).hit_rate =
      some ((hitCount l : ℝ) / ((l.length : ℝ) + 1)) := by
  have hval : ∀ f : QueryMetrics → Option ℝ,
      f ⟨none, none, none⟩ = none →
      optVals f (l ++ [⟨none, none, none⟩]) = optVals f l := by
    intro f hf
    simp [optVals, List.filterMap_append, hf]
  have hnd := hval (fun e => e.ndcg) rfl
  have hrc := hval (fun e => e.«recall») rfl
  have hmr := hval (fun e => e.mrr) rfl
  have hhit : hitCount (l ++ [⟨none, none, none⟩]) = hitCount l := by
    simp [hitCount, List.map_append, List.sum_append, hitIndicator]
  refine ⟨?_, ?_, ?_, ?_, ?_, hhit, ?_⟩
  · simp [aggregate_metrics]
  · simp only [aggregate_metrics, hnd]
  · simp only [aggregate_metrics, hrc]
  · simp only [aggregate_metrics, hmr]
  · simp only [aggregate_metrics, hnd, hrc, hmr]
  · simp only [aggregate_metrics, hhit, List.length_append, List.length_cons,
      List.length_nil]
    rw [if_neg (by omega)]
    push_cast
    ring_nf

/-! ### Claim C9 -/

/-- Claim C9: `aggregate_metrics` is invariant under permutations of the
per-query record list. -/
theorem claim_C9 (l l' : List QueryMetrics) (h : l.Perm l') :
    aggregate_metrics l = aggregate_metrics l' := by
  have hval : ∀ f : QueryMetrics → Option ℝ,
      (optVals f l).sum = (optVals f l').sum ∧
        (optVals f l).length = (optVals f l').length := by
    intro f
    have hperm : (optVals f l).Perm (optVals f l') := h.filterMap f
    exact ⟨hperm.sum_eq, hperm.length_eq⟩
  have hlen : l.length = l'.length := h.length_eq
  have hhit : hitCount l = hitCount l' := (h.map hitIndicator).sum_eq
  obtain ⟨hnds, hndl⟩ := hval (fun e => e.ndcg)
  obtain ⟨hrcs, hrcl⟩ := hval (fun e => e.«recall»)
  obtain ⟨hmrs, hmrl⟩ := hval (fun e => e.mrr)
  simp only [aggregate_metrics, averagedOf, hnds, hndl, hrcs, hrcl, hmrs, hmrl,
    hlen, hhit]

/-- Witness for Claim C9 on a concrete two-element permutation. -/
theorem claim_C9_witness :
    aggregate_metrics [⟨some 1, some 1, some 1⟩, ⟨none, none, none⟩] =
      aggregate_metrics [⟨none, none, none⟩, ⟨some 1, some 1, some 1⟩] :=
  claim_C9 _ _ (List.Perm.swap _ _ _)

/-! ### lexical.py

Documents are modelled at the token level: `tokens` stands for
`_tokenize(content)`, an arbitrary term sequence (terms are `ℕ`).  A
whitespace-only query tokenizes to `[]`, shares no term with any document,
and therefore yields no candidates, subsuming the source's `strip` guard. -/

structure Document where
  doc_id : ℤ
  tokens : List ℕ
deriving DecidableEq

/-- Document frequency of a term: the number of corpus documents containing
it at least once (`df_counter`). -/
def df (corpus : List Document) (t : ℕ) : ℕ :=
  corpus.countP (fun d => t ∈ d.tokens)

/-- `idf = ln((N + 1) / (df + 1)) + 1`.  The source materializes this only
for terms with `df ≥ 1` (with `.get(term, 1.0)` as fallback), but every use
below multiplies it by a term frequency that vanishes exactly when the term
is absent, so the formula's value at `df = 0` is never observable. -/
noncomputable def idf (corpus : List Document) (t : ℕ) : ℝ :=
  Real.log (((corpus.length : ℝ) + 1) / ((df corpus t : ℝ) + 1)) + 1

/-- `1 + ln(rawFreq)` for present terms, `0` (no vector entry) otherwise. -/
noncomputable def tfWeight (tokens : List ℕ) (t : ℕ) : ℝ :=
  if tokens.count t = 0 then 0 else 1 + Real.log ((tokens.count t : ℝ))

/-- Per-document sparse vector entry: `(1 + ln(freq)) * idf[term]`. -/
noncomputable def docWeight (corpus : List Document) (d : Document) (t : ℕ) : ℝ :=
  tfWeight d.tokens t * idf corpus t

/-- The squared L2 norm accumulated over the document's own terms. -/
noncomputable def docNormSq (corpus : List Document) (d : Document) : ℝ :=
  ∑ t ∈ d.tokens.toFinset, docWeight corpus d t ^ 2

/-- `norm = sqrt(norm) if norm > 0 else 1.0`. -/
noncomputable def docNorm (corpus : List Document) (d : Document) : ℝ :=
  if 0 < docNormSq corpus d then Real.sqrt (docNormSq corpus d) else 1

/-- Query-side squared norm (`_vectorize_query`; no IDF on the query). -/
noncomputable def queryNormSq (q : List ℕ) : ℝ :=
  ∑ t ∈ q.toFinset, tfWeight q t ^ 2

/-- Query-side norm with the same `> 0` guard. -/
noncomputable def queryNorm (q : List ℕ) : ℝ :=
  if 0 < queryNormSq q then Real.sqrt (queryNormSq q) else 1

/-- The accumulated dot product of `search`: terms absent from the document
contribute `doc_vec.get(term) = None → continue`, i.e. zero. -/
noncomputable def dotQ (corpus : List Document) (q : List ℕ) (d : Document) : ℝ :=
  ∑ t ∈ q.toFinset, tfWeight q t * docWeight corpus d t

/-- A ranked candidate; `law_name`/`content` are display payload irrelevant
to ranking and omitted from the embedding. -/
structure RetrievedDocument where
  law_id : ℤ
  score : ℝ

/-- The descending-score order used by `scores.sort(key=..., reverse=True)`. -/
def scoreGE (a b : RetrievedDocument) : Prop := b.score ≤ a.score

noncomputable instance : DecidableRel scoreGE :=
  fun a b => inferInstanceAs (Decidable (b.score ≤ a.score))

instance : IsTotal RetrievedDocument scoreGE :=
  ⟨fun a b => le_total b.score a.score⟩

instance : IsTrans RetrievedDocument scoreGE :=
  ⟨fun _ _ _ hab hbc => le_trans hbc hab⟩

/-- The candidate list before sorting: documents with a zero dot product are
skipped, the rest are scored by `dot / (query_norm * doc_norm)` in corpus
order. -/
noncomputable def searchAll (corpus : List Document) (q : List ℕ) :
    List RetrievedDocument :=
  corpus.filterMap (fun d =>
    if dotQ corpus q d = 0 then none
    else some ⟨d.doc_id, dotQ corpus q d / (queryNorm q * docNorm corpus d)⟩)

/-- `LexicalRetriever.search`: sort candidates by descending score
(stable), return the first `top_k`. -/
noncomputable def lexSearch (corpus : List Document) (q : List ℕ) (top_k : ℕ) :
    List RetrievedDocument :=
  (List.insertionSort scoreGE (searchAll corpus q)).take top_k

/-! #### Positivity facts about the index -/

theorem tfWeight_nonneg (tokens : List ℕ) (t : ℕ) : 0 ≤ tfWeight tokens t := by
  unfold tfWeight
  split
  · exact le_refl 0
  · rename_i hc
    have h1 : (1 : ℝ) ≤ (tokens.count t : ℝ) := by
      have : 1 ≤ tokens.count t := Nat.one_le_iff_ne_zero.mpr hc
      exact_mod_cast this
    have := Real.log_nonneg h1
    linarith

theorem tfWeight_pos (tokens : List ℕ) (t : ℕ) (h : t ∈ tokens) :
    0 < tfWeight tokens t := by
  have hc : tokens.count t ≠ 0 := by
    have := List.count_pos_iff.mpr h
    omega
  unfold tfWeight
  rw [if_neg hc]
  have h1 : (1 : ℝ) ≤ (tokens.count t : ℝ) := by
    have : 1 ≤ tokens.count t := Nat.one_le_iff_ne_zero.mpr hc
    exact_mod_cast this
  have := Real.log_nonneg h1
  linarith

theorem tfWeight_eq_zero (tokens : List ℕ) (t : ℕ) (h : t ∉ tokens) :
    tfWeight tokens t = 0 := by
  unfold tfWeight
  rw [if_pos (List.count_eq_zero.mpr h)]

theorem idf_ge_one (corpus : List Document) (t : ℕ) : 1 ≤ idf corpus t := by
  unfold idf
  have hdf : df corpus t ≤ corpus.length := List.countP_le_length _
  have harg : (1 : ℝ) ≤ ((corpus.length : ℝ) + 1) / ((df corpus t : ℝ) + 1) := by
    rw [le_div_iff₀ (by positivity)]
    have : (df corpus t : ℝ) ≤ (corpus.length : ℝ) := by exact_mod_cast hdf
    linarith
  have := Real.log_nonneg harg
  linarith

theorem idf_pos (corpus : List Document) (t : ℕ) : 0 < idf corpus t :=
  lt_of_lt_of_le zero_lt_one (idf_ge_one corpus t)

theorem docWeight_nonneg (corpus : List Document) (d : Document) (t : ℕ) :
    0 ≤ docWeight corpus d t :=
  mul_nonneg (tfWeight_nonneg _ _) (idf_pos corpus t).le

theorem dotQ_nonneg (corpus : List Document) (q : List ℕ) (d : Document) :
    0 ≤ dotQ corpus q d :=
  Finset.sum_nonneg fun _ _ =>
    mul_nonneg (tfWeight_nonneg _ _) (docWeight_nonneg _ _ _)

theorem dotQ_pos_of_shared (corpus : List Document) (q : List ℕ) (d : Document)
    (t : ℕ) (hq : t ∈ q) (hd : t ∈ d.tokens) : 0 < dotQ corpus q d := by
  unfold dotQ
  apply Finset.sum_pos'
  · intro s _
    exact mul_nonneg (tfWeight_nonneg _ _) (docWeight_nonneg _ _ _)
  · refine ⟨t, List.mem_toFinset.mpr hq, ?_⟩
    apply mul_pos (tfWeight_pos _ _ hq)
    exact mul_pos (tfWeight_pos _ _ hd) (idf_pos corpus t)

theorem shared_term_of_dotQ_ne_zero (corpus : List Document) (q : List ℕ)
    (d : Document) (h : dotQ corpus q d ≠ 0) : ∃ t, t ∈ d.tokens ∧ t ∈ q := by
  by_contra hnone
  push_neg at hnone
  apply h
  unfold dotQ
  apply Finset.sum_eq_zero
  intro t ht
  have htq : t ∈ q := List.mem_toFinset.mp ht
  have htd : t ∉ d.tokens := fun hmem => hnone t hmem htq
  rw [docWeight, tfWeight_eq_zero d.tokens t htd, zero_mul, mul_zero]

theorem docNorm_pos (corpus : List Document) (d : Document) :
    0 < docNorm corpus d := by
  unfold docNorm
  split
  · rename_i h
    exact Real.sqrt_pos.mpr h
  · exact zero_lt_one

theorem queryNorm_pos (q : List ℕ) : 0 < queryNorm q := by
  unfold queryNorm
  split
  · rename_i h
    exact Real.sqrt_pos.mpr h
  · exact zero_lt_one

/-- Membership in the unsorted candidate list, unpacked. -/
theorem mem_searchAll_iff (corpus : List Document) (q : List ℕ)
    (rd : RetrievedDocument) :
    rd ∈ searchAll corpus q ↔
      ∃ d, d ∈ corpus ∧ dotQ corpus q d ≠ 0 ∧
        rd = ⟨d.doc_id, dotQ corpus q d / (queryNorm q * docNorm corpus d)⟩ := by
  unfold searchAll
  rw [List.mem_filterMap]
  constructor
  · rintro ⟨d, hd, hf⟩
    by_cases hz : dotQ corpus q d = 0
    · rw [if_pos hz] at hf
      exact absurd hf (by simp)
    · rw [if_neg hz] at hf
      exact ⟨d, hd, hz, (Option.some.inj hf).symm⟩
  · rintro ⟨d, hd, hz, rfl⟩
    exact ⟨d, hd, by rw [if_neg hz]⟩

theorem score_pos_of_mem_searchAll (corpus : List Document) (q : List ℕ)
    (rd : RetrievedDocument) (h : rd ∈ searchAll corpus q) : 0 < rd.score := by
  obtain ⟨d, _, hz, rfl⟩ := (mem_searchAll_iff corpus q rd).mp h
  have hdot : 0 < dotQ corpus q d := lt_of_le_of_ne (dotQ_nonneg corpus q d) (Ne.symm hz)
  exact div_pos hdot (mul_pos (queryNorm_pos q) (docNorm_pos corpus d))

theorem mem_of_mem_lexSearch (corpus : List Document) (q : List ℕ) (k : ℕ)
    (rd : RetrievedDocument) (h : rd ∈ lexSearch corpus q k) :
    rd ∈ searchAll corpus q := by
  unfold lexSearch at h
  have h1 := List.take_subset k (List.insertionSort scoreGE (searchAll corpus q)) h
  exact (List.mem_insertionSort scoreGE).mp h1

/-! ### Claim C8 -/

/-- Claim C8: `search` returns at most `top_k` candidates, sorted by
non-increasing similarity score, all of which come from corpus documents
sharing at least one term with the query (zero-dot-product documents are
dropped). -/
theorem claim_C8 (corpus : List Document) (q : List ℕ) (k : ℕ) :
    (lexSearch corpus q k).length ≤ k ∧
    List.Sorted scoreGE (lexSearch corpus q k) ∧
    (lexSearch corpus q k).Forall (fun rd =>
      ∃ d, d ∈ corpus ∧ rd.law_id = d.doc_id ∧ ∃ t, t ∈ d.tokens ∧ t ∈ q) := by
  refine ⟨?_, ?_, ?_⟩
  · unfold lexSearch
    rw [List.length_take]
    exact min_le_left _ _
  · unfold lexSearch
    exact List.Pairwise.sublist (List.take_sublist _ _)
      (List.sorted_insertionSort scoreGE (searchAll corpus q))
  · rw [List.forall_iff_forall_mem]
    intro rd hrd
    have hmem := mem_of_mem_lexSearch corpus q k rd hrd
    obtain ⟨d, hd, hz, rfl⟩ := (mem_searchAll_iff corpus q rd).mp hmem
    obtain ⟨t, htd, htq⟩ := shared_term_of_dotQ_ne_zero corpus q d hz
    exact ⟨d, hd, rfl, t, htd, htq⟩

/-! ### Claim C10 -/

/-- Claim C10: every candidate returned by `search` carries a strictly
positive score — query weights are at least 1, document weights are
`(1 + ln freq) * idf` with `idf ≥ 1`, zero-dot-product candidates are
skipped before normalization, and both norms are positive — so a returned
score of `0.0` is impossible. -/
theorem claim_C10 (corpus : List Document) (q : List ℕ) (k : ℕ) :
    (lexSearch corpus q k).Forall (fun rd => 0 < rd.score) := by
  rw [List.forall_iff_forall_mem]
  intro rd hrd
  exact score_pos_of_mem_searchAll corpus q rd (mem_of_mem_lexSearch corpus q k rd hrd)

/-! ### Claim C2 -/

/-- Claim C2, amended: querying with the exact token sequence of `d`'s
content returns `d` among the candidates with strictly positive score
whenever `d`'s content is non-empty and `top_k` covers the corpus — but `d`
is not necessarily ranked first, because query vectors carry no IDF and
another document's weight vector can align better with the query. -/
theorem claim_C2_amended (corpus : List Document) (d : Document) (k : ℕ)
    (hd : d ∈ corpus) (hne : d.tokens ≠ []) (hk : corpus.length ≤ k) :
    ∃ rd, rd ∈ lexSearch corpus d.tokens k ∧ rd.law_id = d.doc_id ∧ 0 < rd.score := by
  obtain ⟨t, ht⟩ : ∃ t, t ∈ d.tokens := List.exists_mem_of_ne_nil d.tokens hne
  have hdot : 0 < dotQ corpus d.tokens d := dotQ_pos_of_shared corpus d.tokens d t ht ht
  have hz : dotQ corpus d.tokens d ≠ 0 := ne_of_gt hdot
  have hmem : (⟨d.doc_id, dotQ corpus d.tokens d /
      (queryNorm d.tokens * docNorm corpus d)⟩ : RetrievedDocument) ∈
      searchAll corpus d.tokens :=
    (mem_searchAll_iff corpus d.tokens _).mpr ⟨d, hd, hz, rfl⟩
  have hlen : (List.insertionSort scoreGE (searchAll corpus d.tokens)).length ≤ k := by
    rw [(List.perm_insertionSort scoreGE _).length_eq]
    calc (searchAll corpus d.tokens).length
        ≤ corpus.length := List.length_filterMap_le _ _
      _ ≤ k := hk
  have hall : lexSearch corpus d.tokens k =
      List.insertionSort scoreGE (searchAll corpus d.tokens) := by
    unfold lexSearch
    exact List.take_of_length_le hlen
  refine ⟨⟨d.doc_id, dotQ corpus d.tokens d /
      (queryNorm d.tokens * docNorm corpus d)⟩, ?_, rfl, ?_⟩
  · rw [hall, List.mem_insertionSort]
    exact hmem
  · exact score_pos_of_mem_searchAll _ _ _ hmem

/-- Witness for the amended Claim C2 on a one-document corpus. -/
theorem claim_C2_amended_witness :
    ∃ rd, rd ∈ lexSearch [⟨1, [0]⟩] [0] 1 ∧ rd.law_id = (1 : ℤ) ∧ 0 < rd.score :=
  claim_C2_amended [⟨1, [0]⟩] ⟨1, [0]⟩ 1 (by decide) (by decide) (by decide)

/-- Present terms of frequency 1 have query/document tf weight exactly 1. -/
theorem tfWeight_count_one (tokens : List ℕ) (t : ℕ) (h : tokens.count t = 1) :
    tfWeight tokens t = 1 := by
  unfold tfWeight
  rw [h]
  norm_num

/-- The counterexample corpus for Claim C2: document 1 holds terms
`[0,1,2,3]`; document 2 holds `[0,1,2]`; thirteen filler documents also hold
`[0,1,2]`, driving `idf` of the shared terms down to exactly 1 while term 3
(unique to document 1) has `idf = ln 8 + 1 > 3`. -/
def docA : Document := ⟨1, [0, 1, 2, 3]⟩

def docB : Document := ⟨2, [0, 1, 2]⟩

def docF : Document := ⟨3, [0, 1, 2]⟩

def cexCorpus : List Document := docA :: docB :: List.replicate 13 docF

theorem cex_idf_common (t : ℕ) (h : df cexCorpus t = 15) : idf cexCorpus t = 1 := by
  unfold idf
  rw [h, show cexCorpus.length = 15 from by decide]
  push_cast
  norm_num

theorem cex_idf_rare : idf cexCorpus 3 = Real.log 8 + 1 := by
  unfold idf
  rw [show df cexCorpus 3 = 1 from by decide, show cexCorpus.length = 15 from by decide]
  push_cast
  norm_num

theorem cex_dotA :
    dotQ cexCorpus [0, 1, 2, 3] docA = 4 + Real.log 8 := by
  unfold dotQ docWeight
  rw [show ([0, 1, 2, 3] : List ℕ).toFinset =
        insert 0 (insert 1 (insert 2 ({3} : Finset ℕ))) from by decide]
  rw [Finset.sum_insert (by decide), Finset.sum_insert (by decide),
    Finset.sum_insert (by decide), Finset.sum_singleton]
  rw [show docA.tokens = [0, 1, 2, 3] from rfl]
  rw [tfWeight_count_one [0, 1, 2, 3] 0 (by decide),
    tfWeight_count_one [0, 1, 2, 3] 1 (by decide),
    tfWeight_count_one [0, 1, 2, 3] 2 (by decide),
    tfWeight_count_one [0, 1, 2, 3] 3 (by decide)]
  rw [cex_idf_common 0 (by decide), cex_idf_common 1 (by decide),
    cex_idf_common 2 (by decide), cex_idf_rare]
  ring

theorem cex_dotB :
    dotQ cexCorpus [0, 1, 2, 3] docB = 3 := by
  unfold dotQ docWeight
  rw [show ([0, 1, 2, 3] : List ℕ).toFinset =
        insert 0 (insert 1 (insert 2 ({3} : Finset ℕ))) from by decide]
  rw [Finset.sum_insert (by decide), Finset.sum_insert (by decide),
    Finset.sum_insert (by decide), Finset.sum_singleton]
  rw [show docB.tokens = [0, 1, 2] from rfl]
  rw [tfWeight_count_one [0, 1, 2, 3] 0 (by decide),
    tfWeight_count_one [0, 1, 2, 3] 1 (by decide),
    tfWeight_count_one [0, 1, 2, 3] 2 (by decide),
    tfWeight_count_one [0, 1, 2] 0 (by decide),
    tfWeight_count_one [0, 1, 2] 1 (by decide),
    tfWeight_count_one [0, 1, 2] 2 (by decide)]
  rw [tfWeight_eq_zero [0, 1, 2] 3 (by decide)]
  rw [cex_idf_common 0 (by decide), cex_idf_common 1 (by decide),
    cex_idf_common 2 (by decide)]
  ring

theorem cex_normA :
    docNorm cexCorpus docA = Real.sqrt (3 + (1 + Real.log 8) ^ 2) := by
  have hsq : docNormSq cexCorpus docA = 3 + (1 + Real.log 8) ^ 2 := by
    unfold docNormSq docWeight
    rw [show docA.tokens = [0, 1, 2, 3] from rfl]
    rw [show ([0, 1, 2, 3] : List ℕ).toFinset =
          insert 0 (insert 1 (insert 2 ({3} : Finset ℕ))) from by decide]
    rw [Finset.sum_insert (by decide), Finset.sum_insert (by decide),
      Finset.sum_insert (by decide), Finset.sum_singleton]
    rw [tfWeight_count_one [0, 1, 2, 3] 0 (by decide),
      tfWeight_count_one [0, 1, 2, 3] 1 (by decide),
      tfWeight_count_one [0, 1, 2, 3] 2 (by decide),
      tfWeight_count_one [0, 1, 2, 3] 3 (by decide)]
    rw [cex_idf_common 0 (by decide), cex_idf_common 1 (by decide),
      cex_idf_common 2 (by decide), cex_idf_rare]
    ring
  unfold docNorm
  rw [hsq, if_pos (by positivity)]

theorem cex_normB : docNorm cexCorpus docB = Real.sqrt 3 := by
  have hsq : docNormSq cexCorpus docB = 3 := by
    unfold docNormSq docWeight
    rw [show docB.tokens = [0, 1, 2] from rfl]
    rw [show ([0, 1, 2] : List ℕ).toFinset =
          insert 0 (insert 1 ({2} : Finset ℕ)) from by decide]
    rw [Finset.sum_insert (by decide), Finset.sum_insert (by decide),
      Finset.sum_singleton]
    rw [tfWeight_count_one [0, 1, 2] 0 (by decide),
      tfWeight_count_one [0, 1, 2] 1 (by decide),
      tfWeight_count_one [0, 1, 2] 2 (by decide)]
    rw [cex_idf_common 0 (by decide), cex_idf_common 1 (by decide),
      cex_idf_common 2 (by decide)]
    ring
  unfold docNorm
  rw [hsq, if_pos (by norm_num)]

theorem cex_qnorm : queryNorm [0, 1, 2, 3] = 2 := by
  have hsq : queryNormSq [0, 1, 2, 3] = 4 := by
    unfold queryNormSq
    rw [show ([0, 1, 2, 3] : List ℕ).toFinset =
          insert 0 (insert 1 (insert 2 ({3} : Finset ℕ))) from by decide]
    rw [Finset.sum_insert (by decide), Finset.sum_insert (by decide),
      Finset.sum_insert (by decide), Finset.sum_singleton]
    rw [tfWeight_count_one [0, 1, 2, 3] 0 (by decide),
      tfWeight_count_one [0, 1, 2, 3] 1 (by decide),
      tfWeight_count_one [0, 1, 2, 3] 2 (by decide),
      tfWeight_count_one [0, 1, 2, 3] 3 (by decide)]
    ring
  unfold queryNorm
  rw [hsq, if_pos (by norm_num), show (4 : ℝ) = 2 ^ 2 by norm_num,
    Real.sqrt_sq (by norm_num : (0 : ℝ) ≤ 2)]

theorem cex_log_eight : 2 < Real.log 8 := by
  rw [show (8 : ℝ) = 2 ^ (3 : ℕ) by norm_num, Real.log_pow]
  have h := Real.log_two_gt_d9
  push_cast
  nlinarith

theorem cex_score_lt :
    dotQ cexCorpus [0, 1, 2, 3] docA /
      (queryNorm [0, 1, 2, 3] * docNorm cexCorpus docA) <
    dotQ cexCorpus [0, 1, 2, 3] docB /
      (queryNorm [0, 1, 2, 3] * docNorm cexCorpus docB) := by
  rw [cex_dotA, cex_dotB, cex_qnorm, cex_normA, cex_normB]
  have hL : 2 < Real.log 8 := cex_log_eight
  have hargA : (0 : ℝ) ≤ 3 + (1 + Real.log 8) ^ 2 := by positivity
  have hS2 : Real.sqrt (3 + (1 + Real.log 8) ^ 2) ^ 2 = 3 + (1 + Real.log 8) ^ 2 :=
    Real.sq_sqrt hargA
  have hSpos : 0 < Real.sqrt (3 + (1 + Real.log 8) ^ 2) :=
    Real.sqrt_pos.mpr (by positivity)
  have hT2 : Real.sqrt 3 ^ 2 = (3 : ℝ) := Real.sq_sqrt (by norm_num)
  have hTpos : 0 < Real.sqrt 3 := Real.sqrt_pos.mpr (by norm_num)
  rw [div_lt_div_iff₀ (by positivity) (by positivity)]
  have hkey : Real.sqrt 3 * (4 + Real.log 8) <
      3 * Real.sqrt (3 + (1 + Real.log 8) ^ 2) := by
    have hq : (Real.sqrt 3 * (4 + Real.log 8)) ^ 2 <
        (3 * Real.sqrt (3 + (1 + Real.log 8) ^ 2)) ^ 2 := by
      rw [mul_pow, mul_pow, hT2, hS2]
      nlinarith [mul_pos (sub_pos.mpr hL)
        (by linarith : (0 : ℝ) < Real.log 8 + 1)]
    exact lt_of_pow_lt_pow_left₀ 2 (by positivity) hq
  nlinarith [hkey, hTpos, hSpos]

/-- Claim C2 fails as stated: on `cexCorpus`, querying with the exact token
sequence of document 1's content returns document 2 (or a filler) first —
document 1 is *not* at position 0 even though its content is non-empty. -/
theorem claim_C2_counterexample :
    ∃ rd, (lexSearch cexCorpus [0, 1, 2, 3] 1).head? = some rd ∧ rd.law_id ≠ 1 := by
  have hzA : dotQ cexCorpus [0, 1, 2, 3] docA ≠ 0 := by
    have h : (0 : ℝ) < 4 + Real.log 8 := by nlinarith [cex_log_eight]
    rw [cex_dotA]
    exact ne_of_gt h
  have hzB : dotQ cexCorpus [0, 1, 2, 3] docB ≠ 0 := by
    rw [cex_dotB]
    norm_num
  have hmemA : (⟨docA.doc_id, dotQ cexCorpus [0, 1, 2, 3] docA /
      (queryNorm [0, 1, 2, 3] * docNorm cexCorpus docA)⟩ : RetrievedDocument) ∈
      searchAll cexCorpus [0, 1, 2, 3] :=
    (mem_searchAll_iff _ _ _).mpr ⟨docA, List.mem_cons_self docA _, hzA, rfl⟩
  have hmemB : (⟨docB.doc_id, dotQ cexCorpus [0, 1, 2, 3] docB /
      (queryNorm [0, 1, 2, 3] * docNorm cexCorpus docB)⟩ : RetrievedDocument) ∈
      searchAll cexCorpus [0, 1, 2, 3] :=
    (mem_searchAll_iff _ _ _).mpr
      ⟨docB, List.mem_cons_of_mem docA (List.mem_cons_self docB _), hzB, rfl⟩
  set sorted := List.insertionSort scoreGE (searchAll cexCorpus [0, 1, 2, 3])
    with hsorteddef
  have hAmem_sorted : (⟨docA.doc_id, dotQ cexCorpus [0, 1, 2, 3] docA /
      (queryNorm [0, 1, 2, 3] * docNorm cexCorpus docA)⟩ : RetrievedDocument) ∈
      sorted := (List.mem_insertionSort scoreGE).mpr hmemA
  have hnil : sorted ≠ [] := List.ne_nil_of_mem hAmem_sorted
  obtain ⟨hd, tl, hcons⟩ := List.exists_cons_of_ne_nil hnil
  have hlex : lexSearch cexCorpus [0, 1, 2, 3] 1 = [hd] := by
    unfold lexSearch
    rw [← hsorteddef, hcons]
    rfl
  refine ⟨hd, by rw [hlex]; rfl, ?_⟩
  intro hid
  have hhd_sorted : hd ∈ sorted := by
    rw [hcons]
    exact List.mem_cons_self hd tl
  have hhd_mem : hd ∈ searchAll cexCorpus [0, 1, 2, 3] :=
    (List.mem_insertionSort scoreGE).mp hhd_sorted
  obtain ⟨d, hdmem, hdz, hdeq⟩ := (mem_searchAll_iff _ _ _).mp hhd_mem
  have hdid : d.doc_id = 1 := by
    rw [hdeq] at hid
    exact hid
  have hdA : d = docA := by
    rcases List.mem_cons.mp hdmem with rfl | h1
    · rfl
    rcases List.mem_cons.mp h1 with rfl | h2
    · exact absurd hdid (by decide)
    · have h3 := List.eq_of_mem_replicate h2
      subst h3
      exact absurd hdid (by decide)
  subst hdA
  have hBmem_sorted : (⟨docB.doc_id, dotQ cexCorpus [0, 1, 2, 3] docB /
      (queryNorm [0, 1, 2, 3] * docNorm cexCorpus docB)⟩ : RetrievedDocument) ∈
      sorted := (List.mem_insertionSort scoreGE).mpr hmemB
  have hsorted_pw : List.Sorted scoreGE sorted :=
    List.sorted_insertionSort scoreGE _
  rw [hcons] at hsorted_pw hBmem_sorted
  have hge : scoreGE hd (⟨docB.doc_id, dotQ cexCorpus [0, 1, 2, 3] docB /
      (queryNorm [0, 1, 2, 3] * docNorm cexCorpus docB)⟩ : RetrievedDocument) := by
    rcases List.mem_cons.mp hBmem_sorted with heq | htl
    · exfalso
      have hlaw : (2 : ℤ) = 1 := by
        have := congrArg RetrievedDocument.law_id heq
        rw [hid] at this
        exact this
      exact absurd hlaw (by decide)
    · exact (List.sorted_cons.mp hsorted_pw).1 _ htl
  rw [hdeq] at hge
  exact absurd hge (not_le.mpr cex_score_lt)

/-! ### remote.py

The trust boundary of `RemoteRetriever` is modelled by a `ServiceOutcome`:
the transport either times out, raises a request exception, or delivers a
response with a status code and a body that decodes to JSON (`some`) or does
not (`none`).  Exceptions escaping the Python code are the `.error` branch
of `Except`. -/

inductive PyErr where
  | attributeError
  | typeError
  | keyError
  | indexError
  | valueError
deriving DecidableEq

/-- Decoded JSON values (Python objects after `response.json()`). -/
inductive Json where
  | null
  | bool (b : Bool)
  | num (q : ℚ)
  | str (s : String)
  | arr (elems : List Json)
  | obj (fields : List (String × Json))

/-- Python truthiness of a decoded value. -/
def truthy : Json → Bool
  | .null => false
  | .bool b => b
  | .num q => decide (q ≠ 0)
  | .str s => decide (s ≠ "")
  | .arr l => !l.isEmpty
  | .obj l => !l.isEmpty

def isNull : Json → Bool
  | .null => true
  | _ => false

def isObj : Json → Bool
  | .obj _ => true
  | _ => false

/-- `value.get(key, default)`: only dicts have `.get`; on anything else
Python raises `AttributeError`. -/
def dictGetD (j : Json) (key : String) (dflt : Json) : Except PyErr Json :=
  match j with
  | .obj kvs => .ok ((kvs.lookup key).getD dflt)
  | _ => .error .attributeError

/-- `value[0]`: lists index, strings index characters, dicts raise
`KeyError` (no key `0`), scalars raise `TypeError`. -/
def getItem0 : Json → Except PyErr Json
  | .arr (x :: _) => .ok x
  | .arr [] => .error .indexError
  | .str s =>
      match s.data with
      | c :: _ => .ok (.str (String.mk [c]))
      | [] => .error .indexError
  | .obj _ => .error .keyError
  | _ => .error .typeError

/-- `for entry in value`: lists iterate elements, strings iterate
characters, dicts iterate keys, scalars raise `TypeError`. -/
def pyIter : Json → Except PyErr (List Json)
  | .arr l => .ok l
  | .str s => .ok (s.data.map fun c => Json.str (String.mk [c]))
  | .obj kvs => .ok (kvs.map fun kv => Json.str kv.1)
  | _ => .error .typeError

/-- `.get(key, default)` on a value the surrounding code has *already
guarded* to be a dict — used only for the `isinstance`-checked `entry`.
Unguarded receivers go through `dictGetD`, which raises. -/
def objLookupD (j : Json) (key : String) (dflt : Json) : Json :=
  match j with
  | .obj kvs => (kvs.lookup key).getD dflt
  | _ => dflt

/-- Whitespace stripped from both ends of a character sequence, as Python's
`int`/`float`/`str.strip` do before parsing. -/
def stripChars (cs : List Char) : List Char :=
  ((cs.dropWhile Char.isWhitespace).reverse.dropWhile Char.isWhitespace).reverse

/-- Value of a digit run, most significant first. -/
def digitsToNat (ds : List Char) : ℕ :=
  ds.foldl (fun acc c => 10 * acc + (c.toNat - 48)) 0

/-- An optional leading sign; `true` means negative. -/
def parseSign : List Char → Bool × List Char
  | '+' :: cs => (false, cs)
  | '-' :: cs => (true, cs)
  | cs => (false, cs)

/-- `int(string)`: optional surrounding whitespace, optional sign, a
non-empty digit run, nothing else — or Python's `ValueError`. -/
def parseIntStr (s : String) : Option ℤ :=
  let cs := stripChars s.data
  let sign := parseSign cs
  let ds := sign.2.takeWhile Char.isDigit
  let rest := sign.2.dropWhile Char.isDigit
  if ds.isEmpty || !rest.isEmpty then none
  else some (if sign.1 then -(digitsToNat ds : ℤ) else (digitsToNat ds : ℤ))

/-- `float(string)`: optional surrounding whitespace and sign, then a
finite decimal literal `digits [. digits] [(e|E) [sign] digits]` with at
least one mantissa digit, as an exact rational.  Non-finite literals
(`inf`, `nan`) and digit-grouping underscores fall outside the exact-real
model of floats. -/
def parseFloatStr (s : String) : Option ℚ :=
  let cs := stripChars s.data
  let sign := parseSign cs
  let intPart := sign.2.takeWhile Char.isDigit
  let r1 := sign.2.dropWhile Char.isDigit
  let fracR :=
    match r1 with
    | '.' :: cs2 => (cs2.takeWhile Char.isDigit, cs2.dropWhile Char.isDigit)
    | _ => (([] : List Char), r1)
  if intPart.isEmpty && fracR.1.isEmpty then none
  else
    let mantissa : ℚ :=
      ((digitsToNat (intPart ++ fracR.1) : ℤ) : ℚ) / (10 : ℚ) ^ fracR.1.length
    match fracR.2 with
    | [] => some (if sign.1 then -mantissa else mantissa)
    | c :: cs3 =>
        if c = 'e' ∨ c = 'E' then
          let esign := parseSign cs3
          let expPart := esign.2.takeWhile Char.isDigit
          let r3 := esign.2.dropWhile Char.isDigit
          if expPart.isEmpty || !r3.isEmpty then none
          else
            let scaled : ℚ :=
              if esign.1 then mantissa / (10 : ℚ) ^ digitsToNat expPart
              else mantissa * (10 : ℚ) ^ digitsToNat expPart
            some (if sign.1 then -scaled else scaled)
        else none

/-- `int(value)`: numbers truncate toward zero, booleans coerce, strings
parse as integer literals or raise `ValueError`, everything else raises
`TypeError`. -/
def pyInt : Json → Except PyErr ℤ
  | .num q => .ok (q.num / (q.den : ℤ))
  | .bool b => .ok (if b then 1 else 0)
  | .str s =>
      match parseIntStr s with
      | some n => .ok n
      | none => .error .valueError
  | .null => .error .typeError
  | .arr _ => .error .typeError
  | .obj _ => .error .typeError

/-- `float(value)`: numbers and booleans coerce, strings parse as finite
float literals (decimal and scientific forms included) or raise
`ValueError`, `None` and containers raise `TypeError`. -/
noncomputable def pyFloat : Json → Except PyErr ℝ
  | .num q => .ok (q : ℝ)
  | .bool b => .ok (if b then 1 else 0)
  | .str s =>
      match parseFloatStr s with
      | some q => .ok (q : ℝ)
      | none => .error .valueError
  | .null => .error .typeError
  | .arr _ => .error .typeError
  | .obj _ => .error .typeError

/-- The possible outcomes of the `requests.post` call. -/
inductive ServiceOutcome where
  | timeout
  | reqException
  | response (status : ℕ) (body : Option Json)

/-- `RemoteRetriever._call_service`: `Timeout` and `RequestException`
(including the `HTTPError` that `raise_for_status` raises for 4xx/5xx) are
caught and yield `[]`; an undecodable body (`ValueError` from `.json()`) is
caught and yields `[]`; after the `try` block, `data.get("result", [])` and
`results[0]` run unguarded. -/
def callService (o : ServiceOutcome) : Except PyErr Json :=
  match o with
  | .timeout => .ok (.arr [])
  | .reqException => .ok (.arr [])
  | .response status body =>
      if 400 ≤ status ∧ status < 600 then .ok (.arr [])
      else
        match body with
        | none => .ok (.arr [])
        | some data =>
            match dictGetD data "result" (.arr []) with
            | .error e => .error e
            | .ok results =>
                if truthy results then
                  match getItem0 results with
                  | .error e => .error e
                  | .ok r0 => .ok (if truthy r0 then r0 else .arr [])
                else .ok (.arr [])

/-- A corpus document as used by `_materialize_doc`. -/
structure LawDoc where
  doc_id : ℤ
  law_name : String
  content : String

/-- `_materialize_doc`: the `_by_id` dict keeps the last document for a
duplicated id, and unknown ids get a placeholder name and empty content. -/
def materializeDoc (corpus : List LawDoc) (law_id : ℤ) : String × String :=
  match corpus.reverse.find? (fun d => d.doc_id == law_id) with
  | some d => (d.law_name, d.content)
  | none => ("法条 " ++ toString law_id, "")

/-- A normalized retrieval output of the remote retriever. -/
structure RemoteDoc where
  law_id : ℤ
  law_name : String
  score : ℝ
  content : String

/-- The entry loop of `RemoteRetriever.search`.  The `entry` lookups are
`isinstance`-guarded, but `document` — the value of an entry's `"document"`
field — is *not*: when that field holds a non-dict, `document.get("id")`
raises an uncaught `AttributeError` (hence `dictGetD`).  Malformed ids are
skipped (`int` raises only `TypeError`/`ValueError` there, both caught),
the loop breaks once `top_k` entries are collected, and
`float(entry.get("score", 0.0))` runs *unguarded*. -/
noncomputable def processEntries (corpus : List LawDoc) (top_k : ℕ) :
    List Json → List RemoteDoc → Except PyErr (List RemoteDoc)
  | [], acc => .ok acc
  | e :: rest, acc =>
      let document := if isObj e then objLookupD e "document" (.obj []) else .obj []
      match dictGetD document "id" .null with
      | .error err => .error err
      | .ok v1 =>
          match (if truthy v1 then Except.ok v1
                 else dictGetD document "doc_id" Json.null) with
          | .error err => .error err
          | .ok docId =>
              if isNull docId then processEntries corpus top_k rest acc
              else
                match pyInt docId with
                | .error _ => processEntries corpus top_k rest acc
                | .ok law_id =>
                    match (if isObj e then pyFloat (objLookupD e "score" (.num 0))
                           else .ok 0) with
                    | .error err => .error err
                    | .ok score =>
                        let nameContent := materializeDoc corpus law_id
                        let acc' :=
                          acc ++ [⟨law_id, nameContent.1, score, nameContent.2⟩]
                        if top_k ≤ acc'.length then .ok acc'
                        else processEntries corpus top_k rest acc'

/-- Python's `str.strip()`: drop whitespace from both ends. -/
def pyStrip (s : String) : String :=
  String.mk (stripChars s.data)

/-- `RemoteRetriever.search`: blank queries short-circuit to `[]`; otherwise
the service result is iterated and normalized. -/
noncomputable def remoteSearch (corpus : List LawDoc) (o : ServiceOutcome)
    (query : String) (top_k : ℕ) : Except PyErr (List RemoteDoc) :=
  if pyStrip query = "" then .ok []
  else
    match callService o with
    | .error e => .error e
    | .ok raw =>
        match pyIter raw with
        | .error e => .error e
        | .ok entries => processEntries corpus top_k entries []

/-! ### Claim C4 -/

/-- Claim C4 fails as stated: a 200 response whose body decodes to a JSON
*array* (a malformed response value) makes `data.get("result", [])` raise
`AttributeError` outside the `try` block, and the exception propagates past
`RemoteRetriever.search`. -/
theorem claim_C4_counterexample :
    remoteSearch [] (.response 200 (some (.arr []))) "q" 10 =
      .error .attributeError := by
  rfl

/-- Claim C4, amended: a transport timeout, a request exception, a 4xx/5xx
status, an undecodable body, or an object-shaped body whose `result` field
is absent or falsy all degrade to an empty candidate list without any
exception; only malformed response *values* (e.g. a non-object body) can
propagate an exception. -/
theorem claim_C4_amended (corpus : List LawDoc) (q : String) (k : ℕ)
    (o : ServiceOutcome)
    (h : o = .timeout ∨ o = .reqException ∨
      (∃ s b, o = .response s b ∧ 400 ≤ s ∧ s < 600) ∨
      (∃ s, o = .response s none) ∨
      (∃ s kvs, o = .response s (some (.obj kvs)) ∧
        truthy ((kvs.lookup "result").getD (.arr [])) = false)) :
    remoteSearch corpus o q k = .ok [] := by
  unfold remoteSearch
  by_cases hq : pyStrip q = ""
  · rw [if_pos hq]
  · rw [if_neg hq]
    have hcall : callService o = .ok (.arr []) := by
      rcases h with rfl | rfl | ⟨s, b, rfl, h4, h6⟩ | ⟨s, rfl⟩ | ⟨s, kvs, rfl, hfal⟩
      · rfl
      · rfl
      · simp only [callService]
        rw [if_pos ⟨h4, h6⟩]
      · simp only [callService]
        by_cases hs : 400 ≤ s ∧ s < 600
        · rw [if_pos hs]
        · rw [if_neg hs]
      · simp only [callService]
        by_cases hs : 400 ≤ s ∧ s < 600
        · rw [if_pos hs]
        · rw [if_neg hs]
          simp only [dictGetD]
          rw [hfal]
          simp
    rw [hcall]
    simp only [pyIter]
    rfl

/-- Witness for the amended Claim C4 on a concrete timeout outcome. -/
theorem claim_C4_amended_witness :
    remoteSearch [] ServiceOutcome.timeout "q" 5 = .ok [] :=
  claim_C4_amended [] "q" 5 ServiceOutcome.timeout (Or.inl rfl)
